import Mathlib

/-!
# Verification of the hifi-wifi Governor control loops

Shallow embedding of the decision logic of the hifi-wifi daemon:

* `TcManager` — the bandwidth estimator of `src/network/tc.rs`
  (median-filtered rolling window with asymmetric hysteresis and a
  game-mode freeze).
* `PpsMonitor` — the packets-per-second sampler of `src/network/stats.rs`.
* `gameModeStep` — the game-mode block of `Governor::tick`
  (`src/network/governor.rs`, step 3).
* `bandSteeringStep` — the band-steering block of `Governor::tick`
  (`src/network/governor.rs`, step 6).

Rust `u32`/`u64` counters are modelled as `ℕ` (no overflow occurs in the
modelled ranges), `f64` thresholds and time stamps as `ℚ` with exact
arithmetic, and `VecDeque` as a `List` whose head is the front.  Side
effects (the `tc`/`ethtool`/`iw` commands, D-Bus calls and logging) are
elided; the functions below compute exactly the state transitions and the
decisions the Rust code computes.
-/

/-- Rolling-window push of `VecDeque::push_back` followed by
`if len > window_size { pop_front }` (tc.rs, lines 147–150). -/
def windowPush (w : List ℕ) (cap : ℕ) (x : ℕ) : List ℕ :=
  let w1 := w ++ [x]
  if cap < w1.length then w1.tail else w1

/-- State of `TcManager` (tc.rs, lines 18–45).  The `window_size`,
thresholds and hysteresis tick counts are configuration carried in the
struct, exactly as in the source. -/
structure TcManager where
  last_bandwidth : Option ℕ
  sample_window : List ℕ
  window_size : ℕ
  change_threshold_mbit : ℕ
  change_threshold_pct : ℚ
  stable_ticks : ℕ
  hysteresis_ticks_up : ℕ
  hysteresis_ticks_down : ℕ
  pending_bandwidth : Option ℕ
  pending_direction_up : Bool
  game_mode_frozen : Bool
  frozen_bandwidth : Option ℕ
  throughput_bandwidth : Option ℕ
  deriving Repr, DecidableEq

namespace TcManager

/-- `TcManager::new` (tc.rs, lines 48–70). -/
def new (window_size : ℕ) (threshold_mbit : ℕ) (threshold_pct : ℚ)
    (hysteresis_up : ℕ) (hysteresis_down : ℕ) : TcManager where
  last_bandwidth := none
  sample_window := []
  window_size := window_size
  change_threshold_mbit := threshold_mbit
  change_threshold_pct := threshold_pct
  stable_ticks := 0
  hysteresis_ticks_up := hysteresis_up
  hysteresis_ticks_down := hysteresis_down
  pending_bandwidth := none
  pending_direction_up := false
  game_mode_frozen := false
  frozen_bandwidth := none
  throughput_bandwidth := none

/-- `TcManager::median` (tc.rs, lines 73–85): sort the window, take the
middle element, or for an even-length window the integer average of the
two middle elements.  Rust's in-bounds indexing is rendered with `getD`
(the default is never reached: the indices are in bounds). -/
def median (s : TcManager) : Option ℕ :=
  if s.sample_window.isEmpty then none
  else
    let sorted := List.insertionSort (· ≤ ·) s.sample_window
    let mid := sorted.length / 2
    if sorted.length % 2 = 0 ∧ 1 < sorted.length then
      some ((sorted.getD (mid - 1) 0 + sorted.getD mid 0) / 2)
    else
      some (sorted.getD mid 0)

/-- `TcManager::enter_game_mode` (tc.rs, lines 100–106). -/
def enter_game_mode (s : TcManager) : TcManager :=
  if s.game_mode_frozen then s
  else { s with frozen_bandwidth := s.last_bandwidth, game_mode_frozen := true }

/-- `TcManager::exit_game_mode` (tc.rs, lines 109–118). -/
def exit_game_mode (s : TcManager) : TcManager :=
  if s.game_mode_frozen then
    { s with game_mode_frozen := false, frozen_bandwidth := none,
             stable_ticks := 0, pending_bandwidth := none }
  else s

/-- The effective sample of `update_bandwidth` (tc.rs, lines 135–144):
`min(phy, max(throughput, 50))` when a throughput estimate exists,
otherwise the raw PHY sample. -/
def effectiveSample (s : TcManager) (phy_rate_mbit : ℕ) : ℕ :=
  match s.throughput_bandwidth with
  | some throughput => min phy_rate_mbit (max throughput 50)
  | none => phy_rate_mbit

/-- The `min_samples` warm-up requirement (tc.rs, line 153):
`(window_size / 2).max(2)` — integer (floor) division. -/
def minSamples (s : TcManager) : ℕ :=
  max (s.window_size / 2) 2

/-- The significance test of stage 3 (tc.rs, lines 166–173): the absolute
difference reaches the Mbit threshold, or the relative difference reaches
the fractional threshold.  The `f64` quotient `abs_diff / last ≥ pct` is
rendered exactly over `ℚ` in the multiplied form `pct * last ≤ abs_diff`. -/
def significantB (threshold_mbit : ℕ) (threshold_pct : ℚ) (target last : ℕ) : Bool :=
  let abs_diff := ((target : ℤ) - (last : ℤ)).natAbs
  decide (threshold_mbit ≤ abs_diff) ||
    decide (threshold_pct * (last : ℚ) ≤ (abs_diff : ℚ))

/-- Stage 4 of `update_bandwidth` (tc.rs, lines 186–226): asymmetric
hysteresis on the pending target. -/
def hysteresisStep (s : TcManager) (target : ℕ) (is_decrease : Bool) : Bool × TcManager :=
  let required_ticks := if is_decrease then s.hysteresis_ticks_down else s.hysteresis_ticks_up
  let direction_changed := s.pending_bandwidth.isSome &&
    (s.pending_direction_up != !is_decrease)
  let s1 :=
    if direction_changed then
      { s with pending_bandwidth := some target, pending_direction_up := !is_decrease,
               stable_ticks := 1 }
    else if s.pending_bandwidth.isSome then
      { s with stable_ticks := s.stable_ticks + 1, pending_bandwidth := some target }
    else
      { s with pending_bandwidth := some target, pending_direction_up := !is_decrease,
               stable_ticks := 1 }
  if required_ticks ≤ s1.stable_ticks then
    (true, { s1 with stable_ticks := 0, pending_bandwidth := none })
  else
    (false, s1)

/-- `TcManager::update_bandwidth` (tc.rs, lines 122–227).  Returns the
decision (`true` = "apply CAKE now") together with the updated state. -/
def update_bandwidth (s : TcManager) (phy_rate_mbit : ℕ) : Bool × TcManager :=
  if s.game_mode_frozen then (false, s)
  else if phy_rate_mbit = 0 then (false, s)
  else
    let eff := s.effectiveSample phy_rate_mbit
    let s1 : TcManager := { s with sample_window := windowPush s.sample_window s.window_size eff }
    if s1.sample_window.length < s1.minSamples then (false, s1)
    else
      match s1.median with
      | none => (false, s1)
      | some target =>
        match s1.last_bandwidth with
        | some last =>
          if significantB s1.change_threshold_mbit s1.change_threshold_pct target last then
            s1.hysteresisStep target (decide (target < last))
          else
            (false, { s1 with stable_ticks := 0, pending_bandwidth := none })
        | none => s1.hysteresisStep target false

/-- The state after stage 1 of `update_bandwidth` (tc.rs, lines 146–150):
the effective sample pushed into the rolling window, nothing else
changed.  `update_bandwidth` is definitionally this followed by the
decision stages. -/
def pushed (s : TcManager) (phy_rate_mbit : ℕ) : TcManager :=
  { s with sample_window :=
      windowPush s.sample_window s.window_size (s.effectiveSample phy_rate_mbit) }

/-- `TcManager::get_target_bandwidth` (tc.rs, lines 230–232):
`median().unwrap_or(200).max(10)`. -/
def get_target_bandwidth (s : TcManager) : ℕ :=
  max ((s.median).getD 200) 10

/-- `TcManager::apply_cake` (tc.rs, lines 235–275), success path: the
bandwidth handed to the `tc` command (by both the full and the fallback
invocation) is `get_target_bandwidth`, and on success `last_bandwidth`
is set to it.  Returns the configured bandwidth with the new state. -/
def apply_cake (s : TcManager) : ℕ × TcManager :=
  let bandwidth_mbit := s.get_target_bandwidth
  (bandwidth_mbit, { s with last_bandwidth := some bandwidth_mbit })

/-- `Default for TcManager` (tc.rs, lines 336–341): window 3,
15 Mbit / 15 % thresholds, 3 ticks up, 1 tick down (0.15 = 3/20). -/
def default : TcManager := new 3 15 (3/20) 3 1

/-- Feed a list of samples, counting the `true` ("apply") decisions. -/
def applyCount (s : TcManager) : List ℕ → ℕ
  | [] => 0
  | c :: cs =>
    let r := s.update_bandwidth c
    (if r.1 then 1 else 0) + r.2.applyCount cs

/-- Iterate `update_bandwidth` on a constant sample, keeping the state. -/
def feedConst (s : TcManager) (c : ℕ) : ℕ → TcManager
  | 0 => s
  | n + 1 => ((s.feedConst c n).update_bandwidth c).2

end TcManager

/-- Example estimator states for the C4 witness: mid-accumulation
states over the default configuration. -/
def c4Down : TcManager :=
  { TcManager.default with
      sample_window := [50, 50], last_bandwidth := some 100,
      pending_bandwidth := some 60, pending_direction_up := true, stable_ticks := 1 }

/-- C4 witness state with no pending accumulation. -/
def c4Fresh : TcManager :=
  { TcManager.default with sample_window := [100, 100], last_bandwidth := some 50 }

/-- C4 witness state accumulating an increase. -/
def c4Up : TcManager :=
  { TcManager.default with
      sample_window := [100, 100], last_bandwidth := some 50,
      pending_bandwidth := some 100, pending_direction_up := true, stable_ticks := 1 }

/-- C4 witness state with a pending decrease about to flip to an
increase. -/
def c4Flip : TcManager :=
  { TcManager.default with
      sample_window := [100, 100], last_bandwidth := some 50,
      pending_bandwidth := some 40, pending_direction_up := false, stable_ticks := 1 }

/-! ## PacketRateSampler (`src/network/stats.rs`) -/

/-- `NetStats` (stats.rs, lines 11–15). -/
structure NetStats where
  rx_packets : ℕ
  tx_packets : ℕ
  deriving Repr, DecidableEq

/-- `NetStats::total_packets` (stats.rs, lines 37–39). -/
def NetStats.total_packets (s : NetStats) : ℕ :=
  s.rx_packets + s.tx_packets

/-- `f64::round` on a non-negative rational: round half away from zero,
which on non-negative arguments is `⌊q + 1/2⌋`. -/
def ratRound (q : ℚ) : ℕ :=
  (⌊q + 1 / 2⌋).toNat

/-- State of `PpsMonitor` (stats.rs, lines 43–47).  Time stamps
(`Instant`) are rational seconds. -/
structure PpsMonitor where
  last_stats : Option NetStats
  last_sample_time : Option ℚ
  current_pps : ℕ
  deriving Repr, DecidableEq

namespace PpsMonitor

/-- `PpsMonitor::new` (stats.rs, lines 50–56). -/
def new : PpsMonitor where
  last_stats := none
  last_sample_time := none
  current_pps := 0

/-- `PpsMonitor::sample` (stats.rs, lines 60–81).  The sysfs read is
modelled as the `reading` argument (`none` = unreadable counters), the
call instant as `now`.  Rust's `saturating_sub` is `ℕ` truncated
subtraction. -/
def sample (m : PpsMonitor) (reading : Option NetStats) (now : ℚ) : ℕ × PpsMonitor :=
  match reading with
  | none => (m.current_pps, m)
  | some stats =>
    let pps :=
      match m.last_stats, m.last_sample_time with
      | some last_stats, some last_time =>
        let time_delta := now - last_time
        if 0 < time_delta then
          let packet_delta := stats.total_packets - last_stats.total_packets
          ratRound ((packet_delta : ℚ) / time_delta)
        else m.current_pps
      | _, _ => m.current_pps
    (pps, { last_stats := some stats, last_sample_time := some now, current_pps := pps })

end PpsMonitor

/-! ## Governor game-mode block (`src/network/governor.rs`, step 3) -/

/-- The per-interface game-mode fields of `InterfaceState` that the
game-mode block of `Governor::tick` touches. -/
structure GameModeState where
  game_mode_until : Option ℚ
  tc : TcManager
  deriving Repr, DecidableEq

/-- The game-mode block of `Governor::tick` (governor.rs, lines 300–335)
for one interface.  The PPS sample and the tick instant are inputs; the
two `Instant::now()` reads inside one tick body (they are microseconds
apart) are modelled as the same instant `now`.  Mirrors the source:
arm/extend the cooldown and freeze on first activation when PPS exceeds
the threshold; otherwise, only when `was_in_game` holds, re-check the
expiry and unfreeze when it has passed. -/
def gameModeStep (pps_threshold : ℕ) (cooldown_secs : ℚ) (freeze_cake : Bool)
    (st : GameModeState) (pps : ℕ) (now : ℚ) : GameModeState :=
  let was_in_game :=
    match st.game_mode_until with
    | some untl => decide (now < untl)
    | none => false
  if pps_threshold < pps then
    let st1 : GameModeState := { st with game_mode_until := some (now + cooldown_secs) }
    if freeze_cake && !was_in_game then
      { st1 with tc := st1.tc.enter_game_mode }
    else st1
  else if was_in_game then
    let still_in_game :=
      match st.game_mode_until with
      | some untl => decide (now < untl)
      | none => false
    if !still_in_game && freeze_cake then
      { st with tc := st.tc.exit_game_mode }
    else st
  else st

/-! ## Governor band-steering block (`src/network/governor.rs`, step 6) -/

/-- `WifiBand` (nm.rs, lines 13–18). -/
inductive WifiBand where
  | Band2_4GHz
  | Band5GHz
  | Band6GHz
  | Unknown
  deriving Repr, DecidableEq

/-- `AccessPoint` (nm.rs, lines 33–44); only the fields the band-steering
block reads. -/
structure AccessPoint where
  ssid : String
  bssid : String
  band : WifiBand
  signal_strength : ℤ
  deriving Repr, DecidableEq

/-- `AccessPoint::score` (nm.rs, lines 48–56): signal plus band bias. -/
def AccessPoint.score (ap : AccessPoint) (bias_5ghz bias_6ghz : ℤ) : ℤ :=
  let bias :=
    match ap.band with
    | WifiBand.Band2_4GHz => 0
    | WifiBand.Band5GHz => bias_5ghz
    | WifiBand.Band6GHz => bias_6ghz
    | WifiBand.Unknown => 0
  ap.signal_strength + bias

/-- Modelled from the spec: `AccessPoint::signal_usable`, called at
governor.rs line 664 but not defined under `src/`.  Per the spec ("signal
passing the per-band minimum-signal floor", "per-band minimum-signal
floors"): the signal is usable when it is at least the configured floor
for the AP's band.  The spec gives no floor for an unknown band; such APs
are treated as passing (no theorem below depends on this case). -/
def AccessPoint.signal_usable (ap : AccessPoint) (min_2g min_5g min_6g : ℤ) : Bool :=
  match ap.band with
  | WifiBand.Band2_4GHz => decide (min_2g ≤ ap.signal_strength)
  | WifiBand.Band5GHz => decide (min_5g ≤ ap.signal_strength)
  | WifiBand.Band6GHz => decide (min_6g ≤ ap.signal_strength)
  | WifiBand.Unknown => true

/-- `RoamCandidate` (governor.rs, lines 33–38). -/
structure RoamCandidate where
  bssid : String
  score : ℤ
  consecutive_ticks : ℕ
  deriving Repr, DecidableEq

/-- The per-interface fields of `InterfaceState` touched by the
band-steering block. -/
structure SteerState where
  roam_candidate : Option RoamCandidate
  last_good_bitrate : Option ℕ
  bandwidth_valid : Bool
  deriving Repr, DecidableEq

/-- The candidate selection of the band-steering block (governor.rs,
lines 660–672): filter to same SSID, different BSSID, usable signal, and
take the maximum score.  Rust's `Iterator::max_by_key` returns the LAST
maximal element, modelled by the `≤` in the fold. -/
def bestCandidate (bias_5 bias_6 min_2g min_5g min_6g : ℤ)
    (current_ap : AccessPoint) (access_points : List AccessPoint) : Option AccessPoint :=
  (access_points.filter fun ap =>
      (ap.ssid == current_ap.ssid) && (ap.bssid != current_ap.bssid) &&
        ap.signal_usable min_2g min_5g min_6g).foldl
    (fun acc ap =>
      match acc with
      | none => some ap
      | some b => if b.score bias_5 bias_6 ≤ ap.score bias_5 bias_6 then some ap else some b)
    none

/-- The band-steering block of `Governor::tick` (governor.rs, lines
623–728) for one interface with a known current AP, scan suppression
inactive.  Returns whether a scan was requested, with the new state.
Mirrors the source: an empty AP list leaves the state unchanged; a
best candidate scoring higher than the current AP accumulates
consecutive ticks (restarting at 1 on a BSSID change, and starting at 1
with no trigger when no candidate was tracked); reaching
`roam_hysteresis_ticks` clears the bandwidth cache, requests one scan
and clears the candidate; otherwise the candidate is cleared. -/
def bandSteeringStep (bias_5 bias_6 min_2g min_5g min_6g : ℤ) (roam_hysteresis_ticks : ℕ)
    (current_ap : AccessPoint) (access_points : List AccessPoint)
    (st : SteerState) : Bool × SteerState :=
  if access_points.isEmpty then (false, st)
  else
    let current_score := current_ap.score bias_5 bias_6
    match bestCandidate bias_5 bias_6 min_2g min_5g min_6g current_ap access_points with
    | some best_candidate =>
      let candidate_score := best_candidate.score bias_5 bias_6
      if current_score < candidate_score then
        match st.roam_candidate with
        | some roam =>
          let roam1 :=
            if roam.bssid == best_candidate.bssid then
              { roam with consecutive_ticks := roam.consecutive_ticks + 1,
                          score := candidate_score }
            else
              { bssid := best_candidate.bssid, score := candidate_score,
                consecutive_ticks := 1 }
          if roam_hysteresis_ticks ≤ roam1.consecutive_ticks then
            (true, { st with roam_candidate := none, last_good_bitrate := none,
                             bandwidth_valid := false })
          else
            (false, { st with roam_candidate := some roam1 })
        | none =>
          let fresh : RoamCandidate :=
            { bssid := best_candidate.bssid, score := candidate_score,
              consecutive_ticks := 1 }
          (false, { st with roam_candidate := some fresh })
      else
        (false, { st with roam_candidate := none })
    | none => (false, { st with roam_candidate := none })

/-- Iterate `bandSteeringStep` with a fixed environment, counting scan
requests. -/
def steerRun (bias_5 bias_6 min_2g min_5g min_6g : ℤ) (roam_hysteresis_ticks : ℕ)
    (current_ap : AccessPoint) (access_points : List AccessPoint) :
    ℕ → SteerState → ℕ × SteerState
  | 0, st => (0, st)
  | n + 1, st =>
    let r := bandSteeringStep bias_5 bias_6 min_2g min_5g min_6g roam_hysteresis_ticks
      current_ap access_points st
    let rest := steerRun bias_5 bias_6 min_2g min_5g min_6g roam_hysteresis_ticks
      current_ap access_points n r.2
    ((if r.1 then 1 else 0) + rest.1, rest.2)


/-- Concrete access points and state for the C3 theorems: a 2.4 GHz
current AP and a stronger 5 GHz candidate on the same SSID. -/
def c3Cur : AccessPoint :=
  { ssid := "home", bssid := "aa:aa:aa:aa:aa:aa", band := WifiBand.Band2_4GHz,
    signal_strength := -70 }

/-- The C3 candidate AP (same SSID, different BSSID, usable signal). -/
def c3Cand : AccessPoint :=
  { ssid := "home", bssid := "bb:bb:bb:bb:bb:bb", band := WifiBand.Band5GHz,
    signal_strength := -60 }

/-- The C3 starting interface state: no tracked candidate, cached
bandwidth present and valid. -/
def c3St : SteerState :=
  { roam_candidate := none, last_good_bitrate := some 433000, bandwidth_valid := true }

/-! ## Shape lemmas for `update_bandwidth`

Each lemma captures one exit of the Rust control flow of
`TcManager::update_bandwidth`, so the claim theorems below can be proved
by composing them. -/

namespace TcManager

theorem update_frozen (s : TcManager) (p : ℕ) (h : s.game_mode_frozen = true) :
    s.update_bandwidth p = (false, s) := by
  simp [update_bandwidth, h]

theorem update_zero (s : TcManager) (h : s.game_mode_frozen = false) :
    s.update_bandwidth 0 = (false, s) := by
  simp [update_bandwidth, h]

theorem update_warmup (s : TcManager) (p : ℕ)
    (hf : s.game_mode_frozen = false) (hp : p ≠ 0)
    (hlen : (s.pushed p).sample_window.length < (s.pushed p).minSamples) :
    s.update_bandwidth p = (false, s.pushed p) := by
  simp only [pushed, minSamples] at hlen
  simp [update_bandwidth, pushed, minSamples, hf, hp, hlen]

theorem update_not_significant (s : TcManager) (p t l : ℕ)
    (hf : s.game_mode_frozen = false) (hp : p ≠ 0)
    (hlen : ¬ (s.pushed p).sample_window.length < (s.pushed p).minSamples)
    (hmed : (s.pushed p).median = some t)
    (hlast : s.last_bandwidth = some l)
    (hsig : significantB s.change_threshold_mbit s.change_threshold_pct t l = false) :
    s.update_bandwidth p =
      (false, { s.pushed p with stable_ticks := 0, pending_bandwidth := none }) := by
  obtain ⟨lb, w, ws, tm, tp, st, hu, hd, pb, pd, gf, fb, tb⟩ := s
  simp only at hf hlast
  subst hf hlast
  simp only [pushed, minSamples] at hlen hmed ⊢
  simp [update_bandwidth, minSamples, hp, hlen, hmed, hsig]

theorem update_significant (s : TcManager) (p t l : ℕ)
    (hf : s.game_mode_frozen = false) (hp : p ≠ 0)
    (hlen : ¬ (s.pushed p).sample_window.length < (s.pushed p).minSamples)
    (hmed : (s.pushed p).median = some t)
    (hlast : s.last_bandwidth = some l)
    (hsig : significantB s.change_threshold_mbit s.change_threshold_pct t l = true) :
    s.update_bandwidth p = (s.pushed p).hysteresisStep t (decide (t < l)) := by
  obtain ⟨lb, w, ws, tm, tp, st, hu, hd, pb, pd, gf, fb, tb⟩ := s
  simp only at hf hlast
  subst hf hlast
  simp only [pushed, minSamples] at hlen hmed ⊢
  simp [update_bandwidth, minSamples, hp, hlen, hmed, hsig]

theorem update_first_application (s : TcManager) (p t : ℕ)
    (hf : s.game_mode_frozen = false) (hp : p ≠ 0)
    (hlen : ¬ (s.pushed p).sample_window.length < (s.pushed p).minSamples)
    (hmed : (s.pushed p).median = some t)
    (hlast : s.last_bandwidth = none) :
    s.update_bandwidth p = (s.pushed p).hysteresisStep t false := by
  obtain ⟨lb, w, ws, tm, tp, st, hu, hd, pb, pd, gf, fb, tb⟩ := s
  simp only at hf hlast
  subst hf hlast
  simp only [pushed, minSamples] at hlen hmed ⊢
  simp [update_bandwidth, minSamples, hp, hlen, hmed]

theorem hysteresisStep_sample_window (s : TcManager) (t : ℕ) (d : Bool) :
    (s.hysteresisStep t d).2.sample_window = s.sample_window := by
  simp only [hysteresisStep]
  repeat' split
  all_goals rfl

/-- The rolling window after any non-frozen, non-zero call is exactly the
pushed window, whatever branch the decision logic takes afterwards. -/
theorem update_window (s : TcManager) (p : ℕ)
    (hf : s.game_mode_frozen = false) (hp : p ≠ 0) :
    (s.update_bandwidth p).2.sample_window = (s.pushed p).sample_window := by
  unfold update_bandwidth
  simp only [hf, Bool.false_eq_true, if_false, if_neg hp]
  split
  · rfl
  · split
    · rfl
    · split
      · split
        · rw [hysteresisStep_sample_window]
          rfl
        · rfl
      · rw [hysteresisStep_sample_window]
        rfl

end TcManager

/-! ## Median helper lemmas -/

theorem orderedInsert_self_replicate (c n : ℕ) :
    List.orderedInsert (· ≤ ·) c (List.replicate n c) = List.replicate (n + 1) c := by
  induction n with
  | zero => rfl
  | succ n _ =>
    rw [List.replicate_succ, List.orderedInsert]
    simp [List.replicate_succ]

theorem insertionSort_replicate (c n : ℕ) :
    List.insertionSort (· ≤ ·) (List.replicate n c) = List.replicate n c := by
  induction n with
  | zero => rfl
  | succ n ih =>
    rw [List.replicate_succ, List.insertionSort, ih, orderedInsert_self_replicate]
    rfl

theorem replicate_getD (c : ℕ) : ∀ (n i : ℕ), i < n → (List.replicate n c).getD i 0 = c := by
  intro n
  induction n with
  | zero => intro i h; omega
  | succ n ih =>
    intro i h
    cases i with
    | zero => rfl
    | succ j =>
      rw [List.replicate_succ]
      simpa using ih j (by omega)

namespace TcManager

theorem median_congr (s s' : TcManager) (h : s.sample_window = s'.sample_window) :
    s.median = s'.median := by
  simp [median, h]

theorem median_replicate (s : TcManager) (n c : ℕ)
    (hw : s.sample_window = List.replicate n c) (hn : 1 ≤ n) :
    s.median = some c := by
  obtain ⟨k, rfl⟩ : ∃ k, n = k + 1 := ⟨n - 1, by omega⟩
  have hemp : (List.replicate (k + 1) c).isEmpty = false := by
    rw [List.replicate_succ]
    rfl
  simp only [median, hw, hemp, Bool.false_eq_true, if_false, insertionSort_replicate,
    List.length_replicate]
  by_cases hpar : (k + 1) % 2 = 0 ∧ 1 < k + 1
  · rw [if_pos hpar, replicate_getD c (k + 1) ((k + 1) / 2 - 1) (by omega),
      replicate_getD c (k + 1) ((k + 1) / 2) (by omega)]
    congr 1
    omega
  · rw [if_neg hpar, replicate_getD c (k + 1) ((k + 1) / 2) (by omega)]

/-- Median of a window `[m, m, x]` holding one outlier `x`: the outlier
lands at an end of the sorted window and the middle element stays `m`. -/
theorem median_two_plus_outlier (s : TcManager) (m x : ℕ)
    (hw : s.sample_window = [m, m, x]) : s.median = some m := by
  by_cases h : m ≤ x
  · have hs : List.insertionSort (· ≤ ·) [m, m, x] = [m, m, x] := by
      simp [List.insertionSort, List.orderedInsert, h]
    simp [median, hw, hs]
  · have h' : x ≤ m := le_of_lt (lt_of_not_le h)
    have hs : List.insertionSort (· ≤ ·) [m, m, x] = [x, m, m] := by
      simp [List.insertionSort, List.orderedInsert, h, h']
    simp [median, hw, hs]

theorem get_target_of_median (s : TcManager) (t : ℕ) (h : s.median = some t) :
    s.get_target_bandwidth = max t 10 := by
  simp [get_target_bandwidth, h]

/-- A target equal to the last applied value is never significant when
both thresholds are positive. -/
theorem significant_self_false (tm m : ℕ) (tp : ℚ)
    (h1 : 1 ≤ tm) (h2 : 0 < tp) (hm : 0 < m) :
    significantB tm tp m m = false := by
  have hz : (((m : ℤ) - (m : ℤ)).natAbs : ℕ) = 0 := by simp
  simp only [significantB, hz, Nat.cast_zero]
  rw [Bool.or_eq_false_iff]
  constructor
  · simp only [decide_eq_false_iff_not]
    omega
  · simp only [decide_eq_false_iff_not]
    intro hle
    nlinarith [mul_pos h2 (show (0 : ℚ) < (m : ℚ) by exact_mod_cast hm)]

end TcManager

/-! ## Claim theorems -/

/-- C9 — Freeze invariant: while `game_mode_frozen` is set, every
`update_bandwidth` call returns "no change" and leaves the whole state
(window, pending target, counters) untouched, so no sequence of calls
ever yields an "apply" decision; and `exit_game_mode` on a frozen
estimator clears the pending target and resets the consecutive-tick
hysteresis counter to zero, unfreezing it. -/
theorem C9_freeze_invariant :
    (∀ (s : TcManager) (p : ℕ), s.game_mode_frozen = true →
      s.update_bandwidth p = (false, s))
    ∧ (∀ (s : TcManager) (samples : List ℕ), s.game_mode_frozen = true →
      s.applyCount samples = 0)
    ∧ (∀ s : TcManager, s.game_mode_frozen = true →
      s.exit_game_mode.pending_bandwidth = none ∧ s.exit_game_mode.stable_ticks = 0 ∧
        s.exit_game_mode.game_mode_frozen = false) := by
  refine ⟨fun s p h => TcManager.update_frozen s p h, ?_, ?_⟩
  · intro s samples h
    induction samples with
    | nil => rfl
    | cons c cs ih =>
      simp [TcManager.applyCount, TcManager.update_frozen s c h, ih]
  · intro s h
    simp [TcManager.exit_game_mode, h]

/-- Witness for C9 at a concrete frozen estimator and sample burst. -/
theorem C9_freeze_invariant_witness :
    ({ TcManager.default with game_mode_frozen := true } : TcManager).applyCount [50, 200] = 0
    ∧ ({ TcManager.default with game_mode_frozen := true } : TcManager).update_bandwidth 50 =
      (false, { TcManager.default with game_mode_frozen := true })
    ∧ ({ TcManager.default with game_mode_frozen := true } :
        TcManager).exit_game_mode.pending_bandwidth = none := by
  refine ⟨?_, ?_, ?_⟩
  · exact C9_freeze_invariant.2.1 _ [50, 200] rfl
  · exact C9_freeze_invariant.1 _ 50 rfl
  · exact (C9_freeze_invariant.2.2 _ rfl).1

/-- C10 — Applied-bandwidth floor and empty-window default: the bandwidth
`apply_cake` configures equals the current window median clamped to a
minimum of 10 Mbit, equals 200 Mbit when the window is empty, is never
below 10 Mbit, is recorded as the new last-applied value, and is a
function of the window alone (recomputed at apply time, independent of
the pending target that triggered the apply). -/
theorem C10_apply_cake_floor_default :
    ∀ s : TcManager,
      (∀ m : ℕ, s.median = some m → s.apply_cake.1 = max m 10)
      ∧ 10 ≤ s.apply_cake.1
      ∧ (s.sample_window = [] → s.apply_cake.1 = 200)
      ∧ s.apply_cake.2.last_bandwidth = some s.apply_cake.1
      ∧ (∀ s' : TcManager, s'.sample_window = s.sample_window →
          s'.apply_cake.1 = s.apply_cake.1) := by
  intro s
  refine ⟨?_, ?_, ?_, rfl, ?_⟩
  · intro m h
    simp [TcManager.apply_cake, TcManager.get_target_bandwidth, h]
  · simp [TcManager.apply_cake, TcManager.get_target_bandwidth]
  · intro h
    simp [TcManager.apply_cake, TcManager.get_target_bandwidth, TcManager.median, h]
  · intro s' h
    have := TcManager.median_congr s' s h
    simp [TcManager.apply_cake, TcManager.get_target_bandwidth, this]

/-- Witness for C10 at a window `[100, 100, 500]` (median 100), at an
empty window, and at two states sharing a window but with different
pending targets. -/
theorem C10_apply_cake_floor_default_witness :
    ({ TcManager.default with sample_window := [100, 100, 500] } : TcManager).apply_cake.1 = 100
    ∧ TcManager.default.apply_cake.1 = 200
    ∧ ({ TcManager.default with sample_window := [100, 100, 500], pending_bandwidth := some 500 } : TcManager).apply_cake.1 =
      ({ TcManager.default with sample_window := [100, 100, 500] } : TcManager).apply_cake.1 := by
  refine ⟨?_, ?_, ?_⟩
  · have h := (C10_apply_cake_floor_default
      { TcManager.default with sample_window := [100, 100, 500] }).1 100 (by decide)
    rw [h]
    decide
  · exact (C10_apply_cake_floor_default TcManager.default).2.2.1 rfl
  · exact (C10_apply_cake_floor_default
      { TcManager.default with sample_window := [100, 100, 500] }).2.2.2.2 _ rfl

/-- C7 — Effective-sample rule (estimator not frozen): a zero PHY sample
is discarded (no window insertion, state unchanged, "no change"); a
non-zero PHY sample inserts exactly the effective sample into the
rolling window, where the effective sample is
`min(phy, max(throughput, 50))` when a throughput estimate is available
and the raw PHY sample otherwise. -/
theorem C7_effective_sample_rule :
    ∀ (s : TcManager) (p : ℕ), s.game_mode_frozen = false →
      ((p = 0 → s.update_bandwidth p = (false, s))
      ∧ (p ≠ 0 → (s.update_bandwidth p).2.sample_window =
          windowPush s.sample_window s.window_size (s.effectiveSample p))
      ∧ (∀ tput : ℕ, s.throughput_bandwidth = some tput →
          s.effectiveSample p = min p (max tput 50))
      ∧ (s.throughput_bandwidth = none → s.effectiveSample p = p)) := by
  intro s p hf
  refine ⟨?_, ?_, ?_, ?_⟩
  · rintro rfl
    exact TcManager.update_zero s hf
  · intro hp
    exact TcManager.update_window s p hf hp
  · intro tput ht
    simp [TcManager.effectiveSample, ht]
  · intro ht
    simp [TcManager.effectiveSample, ht]

/-- Witness for C7: PHY 866 with a throughput estimate of 400 inserts
min(866, max(400, 50)) = 400 into the window, and a zero PHY sample
leaves the state unchanged. -/
theorem C7_effective_sample_rule_witness :
    ({ TcManager.default with throughput_bandwidth := some 400 } :
        TcManager).effectiveSample 866 = 400
    ∧ (({ TcManager.default with throughput_bandwidth := some 400 } :
        TcManager).update_bandwidth 866).2.sample_window = [400]
    ∧ ({ TcManager.default with throughput_bandwidth := some 400 } :
        TcManager).update_bandwidth 0 =
      (false, { TcManager.default with throughput_bandwidth := some 400 }) := by
  refine ⟨?_, ?_, ?_⟩
  · rw [(C7_effective_sample_rule _ 866 rfl).2.2.1 400 rfl]
    decide
  · rw [(C7_effective_sample_rule _ 866 rfl).2.1 (by decide)]
    rfl
  · exact (C7_effective_sample_rule _ 0 rfl).1 rfl

/-- Evaluation rule for `ratRound` used by the C8 theorem and witness. -/
theorem ratRound_eq (q : ℚ) (n : ℕ) (h1 : (n : ℚ) ≤ q + 1 / 2) (h2 : q + 1 / 2 < n + 1) :
    ratRound q = n := by
  unfold ratRound
  have hfl : ⌊q + 1 / 2⌋ = (n : ℤ) := by
    rw [Int.floor_eq_iff]
    constructor
    · push_cast
      linarith
    · push_cast
      linarith
  rw [hfl]
  simp

/-- C8 — PacketRateSampler contract: the first call (no baseline) returns
0 and stores a baseline; a subsequent call with readable counters and
positive elapsed time returns `round((current − previous) / elapsed)`
computed with saturating subtraction, so a counter rollback yields 0 and
the result is never negative (the return type is ℕ); the latest reading
always becomes the new baseline; a call with unreadable counters returns
the cached PPS with the state unchanged, and the function is total — it
never returns an error. -/
theorem C8_pps_sampler_contract :
    (∀ (stats : NetStats) (now : ℚ),
      PpsMonitor.new.sample (some stats) now =
        (0, { last_stats := some stats, last_sample_time := some now, current_pps := 0 }))
    ∧ (∀ (m : PpsMonitor) (prev stats : NetStats) (t0 now : ℚ),
      m.last_stats = some prev → m.last_sample_time = some t0 → 0 < now - t0 →
        (m.sample (some stats) now).1 =
          ratRound (((stats.total_packets - prev.total_packets : ℕ) : ℚ) / (now - t0))
        ∧ (m.sample (some stats) now).2.last_stats = some stats
        ∧ (m.sample (some stats) now).2.last_sample_time = some now
        ∧ (stats.total_packets ≤ prev.total_packets → (m.sample (some stats) now).1 = 0))
    ∧ (∀ (m : PpsMonitor) (now : ℚ), m.sample none now = (m.current_pps, m)) := by
  refine ⟨fun stats now => rfl, ?_, fun m now => rfl⟩
  intro m prev stats t0 now h1 h2 h3
  obtain ⟨ls, lt, cp⟩ := m
  simp only at h1 h2
  subst h1 h2
  simp only [PpsMonitor.sample, if_pos h3]
  refine ⟨by trivial, by trivial, by trivial, ?_⟩
  intro hroll
  have hz : stats.total_packets - prev.total_packets = 0 := by omega
  rw [hz]
  simp only [Nat.cast_zero, zero_div]
  exact ratRound_eq 0 0 (by norm_num) (by norm_num)

/-- Witness for C8: counters rising by 300 packets over 2 seconds give
150 PPS, and a rolled-back counter gives 0. -/
theorem C8_pps_sampler_contract_witness :
    (PpsMonitor.new.sample (some ⟨100, 50⟩) 0 =
      (0, { last_stats := some ⟨100, 50⟩, last_sample_time := some 0, current_pps := 0 }))
    ∧ (({ last_stats := some ⟨100, 50⟩, last_sample_time := some 0, current_pps := 0 } :
        PpsMonitor).sample (some ⟨300, 150⟩) 2).1 = 150
    ∧ (({ last_stats := some ⟨300, 150⟩, last_sample_time := some 0, current_pps := 7 } :
        PpsMonitor).sample (some ⟨100, 50⟩) 2).1 = 0 := by
  refine ⟨C8_pps_sampler_contract.1 ⟨100, 50⟩ 0, ?_, ?_⟩
  · have h := (C8_pps_sampler_contract.2.1
      { last_stats := some ⟨100, 50⟩, last_sample_time := some 0, current_pps := 0 }
      ⟨100, 50⟩ ⟨300, 150⟩ 0 2 rfl rfl (by norm_num)).1
    rw [h]
    have hc : ((({ rx_packets := 300, tx_packets := 150 } : NetStats).total_packets -
        ({ rx_packets := 100, tx_packets := 50 } : NetStats).total_packets : ℕ) : ℚ) / (2 - 0) =
        300 / 2 := by
      norm_num [NetStats.total_packets]
    rw [hc]
    exact ratRound_eq _ 150 (by norm_num) (by norm_num)
  · exact (C8_pps_sampler_contract.2.1
      { last_stats := some ⟨300, 150⟩, last_sample_time := some 0, current_pps := 7 }
      ⟨300, 150⟩ ⟨100, 50⟩ 0 2 rfl rfl (by norm_num)).2.2.2 (by decide)

/-- C6 — Median outlier rejection: with a stable window `[m, m]` whose
median equals the last-applied value `m` (thresholds positive,
`m ≥ 10`, not frozen), inserting a single outlier sample `x` yields "no
change" and leaves the reported target at `m`: the window median of
`[m, m, x]` is `m`, unchanged by the outlier. -/
theorem C6_median_outlier_rejection :
    ∀ (s : TcManager) (m x : ℕ),
      s.game_mode_frozen = false →
      s.sample_window = [m, m] →
      s.window_size = 3 →
      s.last_bandwidth = some m →
      s.throughput_bandwidth = none →
      1 ≤ s.change_threshold_mbit →
      0 < s.change_threshold_pct →
      10 ≤ m →
      (s.update_bandwidth x).1 = false ∧
        (s.update_bandwidth x).2.get_target_bandwidth = m := by
  intro s m x hf hw hws hlast hth h1 h2 hm
  have hmpos : 0 < m := by omega
  by_cases hx : x = 0
  · subst hx
    rw [TcManager.update_zero s hf]
    refine ⟨rfl, ?_⟩
    have hmed : s.median = some m :=
      TcManager.median_replicate s 2 m (by rw [hw]; rfl) (by omega)
    rw [TcManager.get_target_of_median s m hmed]
    omega
  · have hpushw : (s.pushed x).sample_window = [m, m, s.effectiveSample x] := by
      simp [TcManager.pushed, windowPush, hw, hws]
    have hmed : (s.pushed x).median = some m :=
      TcManager.median_two_plus_outlier _ m (s.effectiveSample x) hpushw
    have hlen : ¬ (s.pushed x).sample_window.length < (s.pushed x).minSamples := by
      rw [hpushw]
      simp [TcManager.minSamples, TcManager.pushed, hws]
    have hsig : TcManager.significantB s.change_threshold_mbit s.change_threshold_pct m m
        = false := TcManager.significant_self_false _ _ _ h1 h2 hmpos
    rw [TcManager.update_not_significant s x m m hf hx hlen hmed hlast hsig]
    refine ⟨rfl, ?_⟩
    have hmed2 : ({ s.pushed x with stable_ticks := 0, pending_bandwidth := none } :
        TcManager).median = some m := (TcManager.median_congr _ _ rfl).trans hmed
    rw [TcManager.get_target_of_median _ m hmed2]
    omega

/-- Witness for C6 at the spec's example: window `[100, 100]`, last
applied 100, outlier 500 — no change and the target stays 100. -/
theorem C6_median_outlier_rejection_witness :
    (({ TcManager.default with sample_window := [100, 100], last_bandwidth := some 100 } :
        TcManager).update_bandwidth 500).1 = false
    ∧ (({ TcManager.default with sample_window := [100, 100], last_bandwidth := some 100 } :
        TcManager).update_bandwidth 500).2.get_target_bandwidth = 100 := by
  exact C6_median_outlier_rejection _ 100 500 rfl rfl rfl rfl rfl
    (by decide) (by norm_num [TcManager.default, TcManager.new]) (by decide)

/-- C1 — Game-mode unfreeze.  The claim is wrong about the code: the
exit path of the game-mode block is guarded by `else if was_in_game`,
and `was_in_game` is recomputed at the very tick being processed, so on
the first tick at which the cooldown expiry has passed `was_in_game` is
already false and `exit_game_mode` is unreachable — the estimator stays
frozen forever instead of unfreezing after `cooldown_secs`.  Concrete
run (threshold 200, cooldown 30 s, freeze enabled): a tick at t = 0 with
250 PPS freezes the estimator and arms the expiry at t = 30; the next
tick at t = 40 with 0 PPS — the cooldown long expired — leaves the whole
state unchanged and the estimator frozen, where the claim requires
`exit_game_mode` to have run and the freeze to be lifted. -/
theorem C1_game_mode_never_unfrozen :
    (gameModeStep 200 30 true { game_mode_until := none, tc := TcManager.default }
        250 0).tc.game_mode_frozen = true
    ∧ (gameModeStep 200 30 true { game_mode_until := none, tc := TcManager.default }
        250 0).game_mode_until = some 30
    ∧ (30 : ℚ) ≤ 40
    ∧ gameModeStep 200 30 true
        (gameModeStep 200 30 true { game_mode_until := none, tc := TcManager.default } 250 0)
        0 40 =
      gameModeStep 200 30 true { game_mode_until := none, tc := TcManager.default } 250 0
    ∧ (gameModeStep 200 30 true
        (gameModeStep 200 30 true { game_mode_until := none, tc := TcManager.default } 250 0)
        0 40).tc.game_mode_frozen = true := by
  have h1 : gameModeStep 200 30 true { game_mode_until := none, tc := TcManager.default }
      250 0 =
      { game_mode_until := some 30,
        tc := { TcManager.default with game_mode_frozen := true } } := by
    norm_num [gameModeStep, TcManager.enter_game_mode, TcManager.default, TcManager.new]
  have h2 : gameModeStep 200 30 true
      ({ game_mode_until := some 30,
         tc := { TcManager.default with game_mode_frozen := true } } : GameModeState) 0 40 =
      { game_mode_until := some 30,
        tc := { TcManager.default with game_mode_frozen := true } } := by
    norm_num [gameModeStep]
  rw [h1, h2]
  refine ⟨rfl, rfl, by norm_num, rfl, rfl⟩

/-- C2 — counterexample.  The claim's warm-up bound `max(2, ceil(w/2))`
is wrong for odd window sizes ≥ 5: the source uses integer (floor)
division, `max(2, w/2)`.  With `w = 5` and `hysteresis_ticks_up = 1` the
second call already decides "apply" although the window holds 2 samples,
fewer than `max(2, ceil(5/2)) = 3`. -/
theorem C2_warmup_counterexample :
    (((TcManager.new 5 15 (3 / 20) 1 1).update_bandwidth 100).2.update_bandwidth 100).1 = true
    ∧ (((TcManager.new 5 15 (3 / 20) 1 1).update_bandwidth
        100).2.update_bandwidth 100).2.sample_window.length = 2
    ∧ (2 : ℕ) < max 2 ((5 + 1) / 2) := by
  refine ⟨rfl, rfl, by decide⟩

/-- Pushing one more sample into a window of `k < w` equal samples
appends it without eviction. -/
theorem windowPush_replicate (k w c : ℕ) (h : k + 1 ≤ w) :
    windowPush (List.replicate k c) w c = List.replicate (k + 1) c := by
  simp only [windowPush, List.length_append, List.length_replicate, List.length_singleton]
  rw [if_neg (by omega), ← List.replicate_succ']

/-- During warm-up a fresh estimator only accumulates window entries:
after `k < max(w/2, 2)` constant samples the state is the fresh state
with a window of `k` copies. -/
theorem feedConst_warmup (w tm : ℕ) (tp : ℚ) (hu hd c : ℕ) (hc : c ≠ 0) (hw2 : 2 ≤ w) :
    ∀ k, k < max (w / 2) 2 →
      (TcManager.new w tm tp hu hd).feedConst c k =
        { TcManager.new w tm tp hu hd with sample_window := List.replicate k c } := by
  intro k
  induction k with
  | zero => intro _; rfl
  | succ k ih =>
    intro hk
    have hk' : k < max (w / 2) 2 := by omega
    have hle : k + 1 ≤ w := le_trans (le_of_lt hk) (max_le (Nat.div_le_self w 2) hw2)
    show (((TcManager.new w tm tp hu hd).feedConst c k).update_bandwidth c).2 =
      { TcManager.new w tm tp hu hd with sample_window := List.replicate (k + 1) c }
    rw [ih hk']
    have hpush : windowPush (List.replicate k c) w c = List.replicate (k + 1) c :=
      windowPush_replicate k w c hle
    have hlen : (({ TcManager.new w tm tp hu hd with
          sample_window := List.replicate k c } : TcManager).pushed c).sample_window.length <
        (({ TcManager.new w tm tp hu hd with
          sample_window := List.replicate k c } : TcManager).pushed c).minSamples := by
      simp only [TcManager.pushed, TcManager.minSamples, TcManager.effectiveSample,
        TcManager.new, hpush, List.length_replicate]
      omega
    rw [TcManager.update_warmup _ c rfl hc hlen]
    simp only [TcManager.pushed, TcManager.effectiveSample, TcManager.new, hpush]

/-- C2 — amended: the source's warm-up requirement is
`max(2, floor(w/2))` samples, not `max(2, ceil(w/2))`.  (a) While the
window after insertion holds fewer than `max(2, w/2)` samples,
`update_bandwidth` returns "no change" and only the window changes.
(b) The bound is tight: for every window size `w ≥ 2`, a fresh estimator
with one-tick hysteresis fed a constant stream still answers "no change"
at every call that leaves the window below `max(2, w/2)` samples, and
decides "apply" exactly at the call on which the window reaches
`max(2, w/2)` samples. -/
theorem C2_warmup_amended :
    (∀ (s : TcManager) (p : ℕ), s.game_mode_frozen = false → p ≠ 0 →
      (s.pushed p).sample_window.length < max (s.window_size / 2) 2 →
      s.update_bandwidth p = (false, s.pushed p))
    ∧ (∀ (w tm : ℕ) (tp : ℚ) (k : ℕ), 2 ≤ w →
      (k + 1 < max (w / 2) 2 →
        (((TcManager.new w tm tp 1 1).feedConst 100 k).update_bandwidth 100).1 = false)
      ∧ (k + 1 = max (w / 2) 2 →
        (((TcManager.new w tm tp 1 1).feedConst 100 k).update_bandwidth 100).1 = true)) := by
  constructor
  · intro s p hf hp hlen
    exact TcManager.update_warmup s p hf hp hlen
  · intro w tm tp k hw2
    have hmw : max (w / 2) 2 ≤ w := max_le (Nat.div_le_self w 2) hw2
    constructor
    · intro hk
      rw [feedConst_warmup w tm tp 1 1 100 (by omega) hw2 k (by omega)]
      have hpush : windowPush (List.replicate k 100) w 100 = List.replicate (k + 1) 100 :=
        windowPush_replicate k w 100 (by omega)
      have hlen : (({ TcManager.new w tm tp 1 1 with
            sample_window := List.replicate k 100 } : TcManager).pushed 100).sample_window.length <
          (({ TcManager.new w tm tp 1 1 with
            sample_window := List.replicate k 100 } : TcManager).pushed 100).minSamples := by
        simp only [TcManager.pushed, TcManager.minSamples, TcManager.effectiveSample,
          TcManager.new, hpush, List.length_replicate]
        omega
      rw [TcManager.update_warmup _ 100 rfl (by omega) hlen]
    · intro hk
      rw [feedConst_warmup w tm tp 1 1 100 (by omega) hw2 k (by omega)]
      have hpush : windowPush (List.replicate k 100) w 100 = List.replicate (k + 1) 100 :=
        windowPush_replicate k w 100 (by omega)
      have hwin : (({ TcManager.new w tm tp 1 1 with
            sample_window := List.replicate k 100 } : TcManager).pushed 100).sample_window =
          List.replicate (k + 1) 100 := by
        simp only [TcManager.pushed, TcManager.effectiveSample, TcManager.new, hpush]
      have hlen : ¬ (({ TcManager.new w tm tp 1 1 with
            sample_window := List.replicate k 100 } : TcManager).pushed 100).sample_window.length <
          (({ TcManager.new w tm tp 1 1 with
            sample_window := List.replicate k 100 } : TcManager).pushed 100).minSamples := by
        rw [hwin]
        simp only [TcManager.pushed, TcManager.minSamples, TcManager.new, List.length_replicate]
        omega
      have hmed : (({ TcManager.new w tm tp 1 1 with
            sample_window := List.replicate k 100 } : TcManager).pushed 100).median = some 100 :=
        TcManager.median_replicate _ (k + 1) 100 hwin (by omega)
      rw [TcManager.update_first_application _ 100 100 rfl (by omega) hlen hmed rfl]
      simp [TcManager.hysteresisStep, TcManager.pushed, TcManager.effectiveSample, TcManager.new]

/-- Witness for the C2 amended theorem at `w = 5`: the pushed window of
a fresh estimator holds 1 < max(2, 5/2) = 2 samples, so the first call
reports "no change"; the second call — the window reaching 2 samples —
decides "apply". -/
theorem C2_warmup_amended_witness :
    (TcManager.new 5 15 (3 / 20) 1 1).update_bandwidth 100 =
      (false, (TcManager.new 5 15 (3 / 20) 1 1).pushed 100)
    ∧ (((TcManager.new 5 15 (3 / 20) 1 1).feedConst 100 0).update_bandwidth 100).1 = false
    ∧ (((TcManager.new 5 15 (3 / 20) 1 1).feedConst 100 1).update_bandwidth 100).1 = true := by
  refine ⟨?_, ?_, ?_⟩
  · exact C2_warmup_amended.1 (TcManager.new 5 15 (3 / 20) 1 1) 100 rfl (by omega) (by decide)
  · exact (C2_warmup_amended.2 5 15 (3 / 20) 0 (by omega)).1 (by decide)
  · exact (C2_warmup_amended.2 5 15 (3 / 20) 1 (by omega)).2 (by decide)

/-- C5 — counterexample.  A constant stream whose length is exactly the
warm-up requirement (2 samples for the default window of 3) produces NO
"apply" event: the first application counts as an increase and needs
`hysteresis_ticks_up = 3` consecutive ticks, so the claim's "length at
least the warm-up requirement gives exactly one apply" fails at
length 2. -/
theorem C5_convergence_counterexample :
    TcManager.default.applyCount [100, 100] = 0
    ∧ TcManager.default.minSamples = 2
    ∧ ([100, 100] : List ℕ).length = TcManager.default.minSamples := by
  exact ⟨rfl, rfl, rfl⟩

/-- Unfolding rule for `applyCount`. -/
theorem applyCount_cons (s : TcManager) (c : ℕ) (cs : List ℕ) :
    s.applyCount (c :: cs) =
      (if (s.update_bandwidth c).1 then 1 else 0) + (s.update_bandwidth c).2.applyCount cs :=
  rfl

/-- Constant-stream trace, call 1: warm-up. -/
theorem c5_step1 (v : ℕ) (hv : v ≠ 0) :
    TcManager.default.update_bandwidth v =
      (false, { TcManager.default with sample_window := [v] }) := by
  rw [TcManager.update_warmup TcManager.default v rfl hv (by
    simp [TcManager.pushed, TcManager.minSamples, windowPush, TcManager.effectiveSample,
      TcManager.default, TcManager.new])]
  simp [TcManager.pushed, windowPush, TcManager.effectiveSample, TcManager.default, TcManager.new]

/-- Constant-stream trace, call 2: first eligible tick, pending set,
1/3 hysteresis ticks. -/
theorem c5_step2 (v : ℕ) (hv : v ≠ 0) :
    ({ TcManager.default with sample_window := [v] } : TcManager).update_bandwidth v =
      (false, { TcManager.default with
                  sample_window := [v, v], stable_ticks := 1,
                  pending_bandwidth := some v, pending_direction_up := true }) := by
  have hwin : (({ TcManager.default with sample_window := [v] } : TcManager).pushed
      v).sample_window = List.replicate 2 v := by
    simp [TcManager.pushed, windowPush, TcManager.effectiveSample, TcManager.default,
      TcManager.new]
  have hmed : (({ TcManager.default with sample_window := [v] } : TcManager).pushed v).median =
      some v := TcManager.median_replicate _ 2 v hwin (by omega)
  rw [TcManager.update_first_application _ v v rfl hv (by
    rw [hwin]
    simp [TcManager.pushed, TcManager.minSamples, TcManager.default, TcManager.new]) hmed rfl]
  simp [TcManager.hysteresisStep, TcManager.pushed, windowPush, TcManager.effectiveSample,
    TcManager.default, TcManager.new]

/-- Constant-stream trace, call 3: 2/3 hysteresis ticks. -/
theorem c5_step3 (v : ℕ) (hv : v ≠ 0) :
    ({ TcManager.default with
         sample_window := [v, v], stable_ticks := 1,
         pending_bandwidth := some v, pending_direction_up := true } :
        TcManager).update_bandwidth v =
      (false, { TcManager.default with
                  sample_window := [v, v, v], stable_ticks := 2,
                  pending_bandwidth := some v, pending_direction_up := true }) := by
  have hwin : (({ TcManager.default with
      sample_window := [v, v], stable_ticks := 1,
      pending_bandwidth := some v, pending_direction_up := true } : TcManager).pushed
      v).sample_window = List.replicate 3 v := by
    simp [TcManager.pushed, windowPush, TcManager.effectiveSample, TcManager.default,
      TcManager.new]
  have hmed : (({ TcManager.default with
      sample_window := [v, v], stable_ticks := 1,
      pending_bandwidth := some v, pending_direction_up := true } : TcManager).pushed v).median =
      some v := TcManager.median_replicate _ 3 v hwin (by omega)
  rw [TcManager.update_first_application _ v v rfl hv (by
    rw [hwin]
    simp [TcManager.pushed, TcManager.minSamples, TcManager.default, TcManager.new]) hmed rfl]
  simp [TcManager.hysteresisStep, TcManager.pushed, windowPush, TcManager.effectiveSample,
    TcManager.default, TcManager.new]

/-- Constant-stream trace, call 4: 3/3 hysteresis ticks — "apply". -/
theorem c5_step4 (v : ℕ) (hv : v ≠ 0) :
    ({ TcManager.default with
         sample_window := [v, v, v], stable_ticks := 2,
         pending_bandwidth := some v, pending_direction_up := true } :
        TcManager).update_bandwidth v =
      (true, { TcManager.default with
                 sample_window := [v, v, v], pending_direction_up := true }) := by
  have hwin : (({ TcManager.default with
      sample_window := [v, v, v], stable_ticks := 2,
      pending_bandwidth := some v, pending_direction_up := true } : TcManager).pushed
      v).sample_window = List.replicate 3 v := by
    simp [TcManager.pushed, windowPush, TcManager.effectiveSample, TcManager.default,
      TcManager.new]
  have hmed : (({ TcManager.default with
      sample_window := [v, v, v], stable_ticks := 2,
      pending_bandwidth := some v, pending_direction_up := true } :
      TcManager).pushed v).median = some v :=
    TcManager.median_replicate _ 3 v hwin (by omega)
  rw [TcManager.update_first_application _ v v rfl hv (by
    rw [hwin]
    simp [TcManager.pushed, TcManager.minSamples, TcManager.default, TcManager.new]) hmed rfl]
  simp [TcManager.hysteresisStep, TcManager.pushed, windowPush, TcManager.effectiveSample,
    TcManager.default, TcManager.new]

/-- Constant-stream trace after confirmation: the converged state is a
fixed point reporting "no change" forever. -/
theorem c5_fixpoint (v : ℕ) (hv : 1 ≤ v) :
    ({ TcManager.default with
         sample_window := [v, v, v], last_bandwidth := some v,
         pending_direction_up := true } : TcManager).update_bandwidth v =
      (false,
        { TcManager.default with
          sample_window := [v, v, v], last_bandwidth := some v,
          pending_direction_up := true }) := by
  have hwin : (({ TcManager.default with
      sample_window := [v, v, v], last_bandwidth := some v,
      pending_direction_up := true } : TcManager).pushed
      v).sample_window = List.replicate 3 v := by
    simp [TcManager.pushed, windowPush, TcManager.effectiveSample, TcManager.default,
      TcManager.new]
  have hmed : (({ TcManager.default with
      sample_window := [v, v, v], last_bandwidth := some v,
      pending_direction_up := true } : TcManager).pushed v).median =
      some v := TcManager.median_replicate _ 3 v hwin (by omega)
  have hsig : TcManager.significantB 15 (3 / 20) v v = false :=
    TcManager.significant_self_false 15 v (3 / 20) (by omega) (by norm_num) (by omega)
  rw [TcManager.update_not_significant _ v v v rfl (by omega) (by
    rw [hwin]
    simp [TcManager.pushed, TcManager.minSamples, TcManager.default, TcManager.new]) hmed rfl
    hsig]
  simp [TcManager.pushed, windowPush, TcManager.effectiveSample, TcManager.default,
    TcManager.new]

/-- C5 — amended: the convergence claim holds once the stream is long
enough for the increase hysteresis as well as the warm-up: with the
default configuration (window 3, warm-up 2, `hysteresis_ticks_up = 3`),
a fresh estimator fed a constant `v ≥ 10` emits exactly one "apply"
within the first warm-up + hysteresis_ticks_up − 1 = 4 samples — on
call 4 exactly — at target `v`; and after the caller confirms via
`apply_cake` (setting last-applied to `v`), every further sample of `v`
reports "no change", never a second "apply". -/
theorem C5_convergence_amended :
    ∀ v : ℕ, 10 ≤ v →
      TcManager.default.applyCount (List.replicate 4 v) = 1
      ∧ ((TcManager.default.feedConst v 3).update_bandwidth v).1 = true
      ∧ (TcManager.default.feedConst v 4).apply_cake.1 = v
      ∧ ∀ n : ℕ,
          (TcManager.default.feedConst v 4).apply_cake.2.applyCount (List.replicate n v) = 0 := by
  intro v hv
  have hv0 : v ≠ 0 := by omega
  have e1 := c5_step1 v hv0
  have e2 := c5_step2 v hv0
  have e3 := c5_step3 v hv0
  have e4 := c5_step4 v hv0
  have f1 : TcManager.default.feedConst v 1 =
      { TcManager.default with sample_window := [v] } := by
    have h : TcManager.default.feedConst v 1 = (TcManager.default.update_bandwidth v).2 := rfl
    rw [h, e1]
  have f2 : TcManager.default.feedConst v 2 =
      { TcManager.default with
          sample_window := [v, v], stable_ticks := 1,
          pending_bandwidth := some v, pending_direction_up := true } := by
    have h : TcManager.default.feedConst v 2 =
        ((TcManager.default.feedConst v 1).update_bandwidth v).2 := rfl
    rw [h, f1, e2]
  have f3 : TcManager.default.feedConst v 3 =
      { TcManager.default with
          sample_window := [v, v, v], stable_ticks := 2,
          pending_bandwidth := some v, pending_direction_up := true } := by
    have h : TcManager.default.feedConst v 3 =
        ((TcManager.default.feedConst v 2).update_bandwidth v).2 := rfl
    rw [h, f2, e3]
  have f4 : TcManager.default.feedConst v 4 =
      { TcManager.default with
          sample_window := [v, v, v], pending_direction_up := true } := by
    have h : TcManager.default.feedConst v 4 =
        ((TcManager.default.feedConst v 3).update_bandwidth v).2 := rfl
    rw [h, f3, e4]
  have hmed4 : ({ TcManager.default with
      sample_window := [v, v, v], pending_direction_up := true } : TcManager).median =
      some v := TcManager.median_replicate _ 3 v rfl (by omega)
  have hac : (TcManager.default.feedConst v 4).apply_cake.1 = v := by
    rw [f4, show ({ TcManager.default with
        sample_window := [v, v, v], pending_direction_up := true } :
        TcManager).apply_cake.1 = max v 10 from by
      simp [TcManager.apply_cake, TcManager.get_target_of_median _ _ hmed4]]
    exact max_eq_left hv
  have hs5 : (TcManager.default.feedConst v 4).apply_cake.2 =
      { TcManager.default with
          sample_window := [v, v, v], last_bandwidth := some v,
          pending_direction_up := true } := by
    rw [f4]
    simp [TcManager.apply_cake, TcManager.get_target_of_median _ _ hmed4, max_eq_left hv]
  refine ⟨?_, ?_, hac, ?_⟩
  · show TcManager.default.applyCount [v, v, v, v] = 1
    rw [applyCount_cons, e1]
    dsimp only
    rw [applyCount_cons, e2]
    dsimp only
    rw [applyCount_cons, e3]
    dsimp only
    rw [applyCount_cons, e4]
    dsimp only
    norm_num [TcManager.applyCount]
  · rw [f3, e4]
  · intro n
    rw [hs5]
    induction n with
    | zero => rfl
    | succ n ih =>
      rw [List.replicate_succ, applyCount_cons, c5_fixpoint v (by omega)]
      dsimp only
      rw [ih]
      norm_num

/-- Witness for the C5 amended theorem at `v = 100`. -/
theorem C5_convergence_amended_witness :
    TcManager.default.applyCount (List.replicate 4 100) = 1
    ∧ ((TcManager.default.feedConst 100 3).update_bandwidth 100).1 = true
    ∧ (TcManager.default.feedConst 100 4).apply_cake.1 = 100
    ∧ (TcManager.default.feedConst 100 4).apply_cake.2.applyCount (List.replicate 5 100) = 0 := by
  obtain ⟨h1, h2, h3, h4⟩ := C5_convergence_amended 100 (by omega)
  exact ⟨h1, h2, h3, h4 5⟩

/-! ## Case lemmas for `hysteresisStep` (used by C4) -/

theorem hStep_none_fire (s : TcManager) (tgt : ℕ) (d : Bool)
    (hpend : s.pending_bandwidth = none)
    (hreq : (if d then s.hysteresis_ticks_down else s.hysteresis_ticks_up) ≤ 1) :
    s.hysteresisStep tgt d =
      (true,
        { s with stable_ticks := 0, pending_bandwidth := none, pending_direction_up := !d }) := by
  cases d <;>
    (simp at hreq
     simp [TcManager.hysteresisStep, hpend]
     try omega)

theorem hStep_none_wait (s : TcManager) (tgt : ℕ) (d : Bool)
    (hpend : s.pending_bandwidth = none)
    (hreq : ¬ (if d then s.hysteresis_ticks_down else s.hysteresis_ticks_up) ≤ 1) :
    s.hysteresisStep tgt d =
      (false,
        { s with stable_ticks := 1, pending_bandwidth := some tgt,
                 pending_direction_up := !d }) := by
  cases d <;>
    (simp at hreq
     simp [TcManager.hysteresisStep, hpend]
     try omega)

theorem hStep_same_fire (s : TcManager) (tgt : ℕ) (d : Bool)
    (hpend : s.pending_bandwidth.isSome = true)
    (hdir : s.pending_direction_up = !d)
    (hreq : (if d then s.hysteresis_ticks_down else s.hysteresis_ticks_up) ≤ s.stable_ticks + 1) :
    s.hysteresisStep tgt d = (true, { s with stable_ticks := 0, pending_bandwidth := none }) := by
  cases d <;>
    (simp at hreq
     simp [TcManager.hysteresisStep, hpend, hdir]
     try omega)

theorem hStep_same_wait (s : TcManager) (tgt : ℕ) (d : Bool)
    (hpend : s.pending_bandwidth.isSome = true)
    (hdir : s.pending_direction_up = !d)
    (hreq : ¬ (if d then s.hysteresis_ticks_down else s.hysteresis_ticks_up) ≤
      s.stable_ticks + 1) :
    s.hysteresisStep tgt d =
      (false, { s with stable_ticks := s.stable_ticks + 1, pending_bandwidth := some tgt }) := by
  cases d <;>
    (simp at hreq
     simp [TcManager.hysteresisStep, hpend, hdir]
     try omega)

theorem hStep_flip_fire (s : TcManager) (tgt : ℕ) (d : Bool)
    (hpend : s.pending_bandwidth.isSome = true)
    (hdir : s.pending_direction_up = d)
    (hreq : (if d then s.hysteresis_ticks_down else s.hysteresis_ticks_up) ≤ 1) :
    s.hysteresisStep tgt d =
      (true,
        { s with stable_ticks := 0, pending_bandwidth := none, pending_direction_up := !d }) := by
  cases d <;>
    (simp at hreq
     simp [TcManager.hysteresisStep, hpend, hdir]
     try omega)

theorem hStep_flip_wait (s : TcManager) (tgt : ℕ) (d : Bool)
    (hpend : s.pending_bandwidth.isSome = true)
    (hdir : s.pending_direction_up = d)
    (hreq : ¬ (if d then s.hysteresis_ticks_down else s.hysteresis_ticks_up) ≤ 1) :
    s.hysteresisStep tgt d =
      (false,
        { s with stable_ticks := 1, pending_bandwidth := some tgt,
                 pending_direction_up := !d }) := by
  cases d <;>
    (simp at hreq
     simp [TcManager.hysteresisStep, hpend, hdir]
     try omega)

/-- C4 — Asymmetric hysteresis.  For a qualifying sample past warm-up
(median `t` vs last-applied `l` significant): (1) a decrease with the
default `hysteresis_ticks_down = 1` fires on that very tick; (2) with no
pending accumulation the counter starts at 1 and fires iff the
direction's requirement is ≤ 1, otherwise recording pending target `t`
and the direction; (3) a same-direction increase increments the counter
by one and fires iff it reaches `hysteresis_ticks_up` — one fewer
qualifying sample does not fire and leaves the incremented counter and
target pending; (4)/(5) a direction flip mid-accumulation restarts the
counter at 1 for the new direction and target. -/
theorem C4_asymmetric_hysteresis :
    ∀ (s : TcManager) (p t l : ℕ),
      s.game_mode_frozen = false → p ≠ 0 →
      ¬ (s.pushed p).sample_window.length < (s.pushed p).minSamples →
      (s.pushed p).median = some t →
      s.last_bandwidth = some l →
      TcManager.significantB s.change_threshold_mbit s.change_threshold_pct t l = true →
      ((t < l → s.hysteresis_ticks_down = 1 → (s.update_bandwidth p).1 = true)
      ∧ (s.pending_bandwidth = none →
          ((s.update_bandwidth p).1 = true ↔
            (if t < l then s.hysteresis_ticks_down else s.hysteresis_ticks_up) ≤ 1)
          ∧ (¬ (if t < l then s.hysteresis_ticks_down else s.hysteresis_ticks_up) ≤ 1 →
              (s.update_bandwidth p).2.stable_ticks = 1
              ∧ (s.update_bandwidth p).2.pending_bandwidth = some t
              ∧ (s.update_bandwidth p).2.pending_direction_up = !(decide (t < l))))
      ∧ (l < t → s.pending_bandwidth.isSome = true → s.pending_direction_up = true →
          ((s.update_bandwidth p).1 = true ↔ s.hysteresis_ticks_up ≤ s.stable_ticks + 1)
          ∧ (s.stable_ticks + 1 < s.hysteresis_ticks_up →
              (s.update_bandwidth p).2.stable_ticks = s.stable_ticks + 1
              ∧ (s.update_bandwidth p).2.pending_bandwidth = some t))
      ∧ (l < t → s.pending_bandwidth.isSome = true → s.pending_direction_up = false →
          ((s.update_bandwidth p).1 = true ↔ s.hysteresis_ticks_up ≤ 1)
          ∧ (¬ s.hysteresis_ticks_up ≤ 1 →
              (s.update_bandwidth p).2.stable_ticks = 1
              ∧ (s.update_bandwidth p).2.pending_bandwidth = some t
              ∧ (s.update_bandwidth p).2.pending_direction_up = true))
      ∧ (t < l → s.pending_bandwidth.isSome = true → s.pending_direction_up = true →
          ((s.update_bandwidth p).1 = true ↔ s.hysteresis_ticks_down ≤ 1)
          ∧ (¬ s.hysteresis_ticks_down ≤ 1 →
              (s.update_bandwidth p).2.stable_ticks = 1
              ∧ (s.update_bandwidth p).2.pending_bandwidth = some t
              ∧ (s.update_bandwidth p).2.pending_direction_up = false))) := by
  intro s p t l hf hp hlen hmed hlast hsig
  have hu := TcManager.update_significant s p t l hf hp hlen hmed hlast hsig
  rw [hu]
  refine ⟨?_, ?_, ?_, ?_, ?_⟩
  · intro htl hd1
    have hd : decide (t < l) = true := by simp [htl]
    rw [hd]
    rcases hopt : s.pending_bandwidth with _ | pb
    · rw [hStep_none_fire (s.pushed p) t true hopt (by simp [TcManager.pushed, hd1])]
    · cases hdb : s.pending_direction_up
      · rw [hStep_same_fire (s.pushed p) t true (by simp [TcManager.pushed, hopt]) hdb
          (by simp [TcManager.pushed, hd1])]
      · rw [hStep_flip_fire (s.pushed p) t true (by simp [TcManager.pushed, hopt]) hdb
          (by simp [TcManager.pushed, hd1])]
  · intro hpend
    by_cases htl : t < l
    · have hd : decide (t < l) = true := by simp [htl]
      rw [hd]
      by_cases hreq : s.hysteresis_ticks_down ≤ 1
      · rw [hStep_none_fire (s.pushed p) t true hpend (by simpa [TcManager.pushed] using hreq)]
        constructor
        · simp [htl, hreq]
        · intro hcon
          simp [htl] at hcon
          exact absurd hreq (by omega)
      · rw [hStep_none_wait (s.pushed p) t true hpend (by simpa [TcManager.pushed] using hreq)]
        constructor
        · simp [htl, hreq]
        · intro _
          exact ⟨rfl, rfl, by simp [hd]⟩
    · have hd : decide (t < l) = false := by simp [htl]
      rw [hd]
      by_cases hreq : s.hysteresis_ticks_up ≤ 1
      · rw [hStep_none_fire (s.pushed p) t false hpend (by simpa [TcManager.pushed] using hreq)]
        constructor
        · simp [htl, hreq]
        · intro hcon
          simp [htl] at hcon
          exact absurd hreq (by omega)
      · rw [hStep_none_wait (s.pushed p) t false hpend (by simpa [TcManager.pushed] using hreq)]
        constructor
        · simp [htl, hreq]
        · intro _
          exact ⟨rfl, rfl, by simp [hd]⟩
  · intro hlt hpend hdir
    have hd : decide (t < l) = false := by simp; omega
    rw [hd]
    by_cases hreq : s.hysteresis_ticks_up ≤ s.stable_ticks + 1
    · rw [hStep_same_fire (s.pushed p) t false hpend hdir (by simpa [TcManager.pushed] using hreq)]
      constructor
      · simp [hreq]
      · intro hcon
        exact absurd hcon (by omega)
    · rw [hStep_same_wait (s.pushed p) t false hpend hdir (by simpa [TcManager.pushed] using hreq)]
      constructor
      · simp [hreq]
      · intro _
        exact ⟨rfl, rfl⟩
  · intro hlt hpend hdir
    have hd : decide (t < l) = false := by simp; omega
    rw [hd]
    by_cases hreq : s.hysteresis_ticks_up ≤ 1
    · rw [hStep_flip_fire (s.pushed p) t false hpend hdir (by simpa [TcManager.pushed] using hreq)]
      constructor
      · simp [hreq]
      · intro hcon
        exact absurd hreq hcon
    · rw [hStep_flip_wait (s.pushed p) t false hpend hdir (by simpa [TcManager.pushed] using hreq)]
      constructor
      · simp [hreq]
      · intro _
        exact ⟨rfl, rfl, rfl⟩
  · intro htl hpend hdir
    have hd : decide (t < l) = true := by simp [htl]
    rw [hd]
    by_cases hreq : s.hysteresis_ticks_down ≤ 1
    · rw [hStep_flip_fire (s.pushed p) t true hpend hdir (by simpa [TcManager.pushed] using hreq)]
      constructor
      · simp [hreq]
      · intro hcon
        exact absurd hreq hcon
    · rw [hStep_flip_wait (s.pushed p) t true hpend hdir (by simpa [TcManager.pushed] using hreq)]
      constructor
      · simp [hreq]
      · intro _
        exact ⟨rfl, rfl, rfl⟩

/-- Witness for C4 at concrete mid-accumulation states: a significant
decrease fires at once (down-hysteresis 1); a fresh accumulation
records counter 1 without firing (increase needs 3); a second
qualifying increase tick reaches 2 of 3 and must not fire; a
direction flip restarts the counter at 1 for the new direction. -/
theorem C4_asymmetric_hysteresis_witness :
    (c4Down.update_bandwidth 50).1 = true
    ∧ ((c4Down.update_bandwidth 50).1 = true ↔ c4Down.hysteresis_ticks_down ≤ 1)
    ∧ ((c4Fresh.update_bandwidth 100).1 = true ↔
        (if (100 : ℕ) < 50 then c4Fresh.hysteresis_ticks_down else
          c4Fresh.hysteresis_ticks_up) ≤ 1)
    ∧ ((c4Fresh.update_bandwidth 100).2.stable_ticks = 1
        ∧ (c4Fresh.update_bandwidth 100).2.pending_bandwidth = some 100
        ∧ (c4Fresh.update_bandwidth 100).2.pending_direction_up = !(decide ((100 : ℕ) < 50)))
    ∧ ((c4Up.update_bandwidth 100).1 = true ↔
        c4Up.hysteresis_ticks_up ≤ c4Up.stable_ticks + 1)
    ∧ ((c4Up.update_bandwidth 100).2.stable_ticks = c4Up.stable_ticks + 1
        ∧ (c4Up.update_bandwidth 100).2.pending_bandwidth = some 100)
    ∧ ((c4Flip.update_bandwidth 100).2.stable_ticks = 1
        ∧ (c4Flip.update_bandwidth 100).2.pending_bandwidth = some 100
        ∧ (c4Flip.update_bandwidth 100).2.pending_direction_up = true) := by
  have hA := C4_asymmetric_hysteresis c4Down 50 50 100 rfl (by decide) (by decide) rfl rfl rfl
  have hC := C4_asymmetric_hysteresis c4Fresh 100 100 50 rfl (by decide) (by decide) rfl rfl rfl
  have hB := C4_asymmetric_hysteresis c4Up 100 100 50 rfl (by decide) (by decide) rfl rfl rfl
  have hD := C4_asymmetric_hysteresis c4Flip 100 100 50 rfl (by decide) (by decide) rfl rfl rfl
  exact ⟨hA.1 (by decide) rfl, (hA.2.2.2.2 (by decide) rfl rfl).1, (hC.2.1 rfl).1,
    (hC.2.1 rfl).2 (by decide), (hB.2.2.1 (by decide) rfl rfl).1,
    (hB.2.2.1 (by decide) rfl rfl).2 (by decide), (hD.2.2.2.1 (by decide) rfl rfl).2 (by decide)⟩

/-- C3 — counterexample.  With `roam_hysteresis_ticks = 1` a candidate
that beats the current AP does NOT trigger a scan on its first
qualifying tick: when no candidate was being tracked the source only
records the candidate (`consecutive_ticks = 1`) and hard-codes
`should_trigger = false`, so the first possible trigger is tick 2.  The
claim's "for every roam_hysteresis_ticks value t, … score exceeds … for
t consecutive ticks causes exactly one scan request" fails at t = 1. -/
theorem C3_roam_counterexample :
    (bandSteeringStep 15 20 (-75) (-72) (-65) 1 c3Cur [c3Cur, c3Cand] c3St).1 = false
    ∧ c3St.roam_candidate = none
    ∧ bestCandidate 15 20 (-75) (-72) (-65) c3Cur [c3Cur, c3Cand] = some c3Cand
    ∧ c3Cur.score 15 20 < c3Cand.score 15 20 := by
  exact ⟨rfl, rfl, by decide, by decide⟩

/-- C3 — amended: the claim holds for `roam_hysteresis_ticks = t ≥ 2`
(starting from no tracked candidate; for t ≤ 1 the first trigger still
needs 2 ticks).  With a fixed best candidate `b` beating the current
AP: (a) for `1 ≤ k < t` ticks, no scan is requested and the candidate
is tracked with `k` consecutive ticks; (b) at tick `t` exactly one scan
request is issued, the candidate is cleared and the cached bandwidth
state (last-known-good bitrate, validity flag) is reset; (c) if a
different BSSID is being tracked mid-accumulation, the counter restarts
at 1 for the new BSSID (no scan, since t ≥ 2). -/
theorem C3_roam_amended :
    ∀ (b5 b6 m2 m5 m6 : ℤ) (t : ℕ) (cur b : AccessPoint) (aps : List AccessPoint)
      (st0 : SteerState),
      2 ≤ t →
      bestCandidate b5 b6 m2 m5 m6 cur aps = some b →
      cur.score b5 b6 < b.score b5 b6 →
      st0.roam_candidate = none →
      ((∀ k, 1 ≤ k → k < t →
        steerRun b5 b6 m2 m5 m6 t cur aps k st0 =
          (0, { st0 with roam_candidate := some ⟨b.bssid, b.score b5 b6, k⟩ }))
      ∧ steerRun b5 b6 m2 m5 m6 t cur aps t st0 =
          (1, { st0 with
                  roam_candidate := none, last_good_bitrate := none,
                  bandwidth_valid := false })
      ∧ (∀ (st : SteerState) (r : RoamCandidate), st.roam_candidate = some r →
          r.bssid ≠ b.bssid →
          bandSteeringStep b5 b6 m2 m5 m6 t cur aps st =
            (false, { st with roam_candidate := some ⟨b.bssid, b.score b5 b6, 1⟩ }))) := by
  intro b5 b6 m2 m5 m6 t cur b aps st0 ht hbest hscore hcand
  have hne : aps.isEmpty = false := by
    cases aps with
    | nil => simp [bestCandidate] at hbest
    | cons a l => rfl
  have hstep_none : ∀ st : SteerState, st.roam_candidate = none →
      bandSteeringStep b5 b6 m2 m5 m6 t cur aps st =
        (false, { st with roam_candidate := some ⟨b.bssid, b.score b5 b6, 1⟩ }) := by
    intro st hc
    simp [bandSteeringStep, hne, hbest, hscore, hc]
  have hstep_same_wait : ∀ (st : SteerState) (sc : ℤ) (k : ℕ),
      st.roam_candidate = some ⟨b.bssid, sc, k⟩ → k + 1 < t →
      bandSteeringStep b5 b6 m2 m5 m6 t cur aps st =
        (false, { st with roam_candidate := some ⟨b.bssid, b.score b5 b6, k + 1⟩ }) := by
    intro st sc k hc hk
    simp [bandSteeringStep, hne, hbest, hscore, hc]
    omega
  have hstep_same_fire : ∀ (st : SteerState) (sc : ℕ → ℤ) (k : ℕ),
      st.roam_candidate = some ⟨b.bssid, sc k, k⟩ → t ≤ k + 1 →
      bandSteeringStep b5 b6 m2 m5 m6 t cur aps st =
        (true, { st with
                   roam_candidate := none, last_good_bitrate := none,
                   bandwidth_valid := false }) := by
    intro st sc k hc hk
    simp [bandSteeringStep, hne, hbest, hscore, hc]
    omega
  have hstep_other : ∀ (st : SteerState) (r : RoamCandidate), st.roam_candidate = some r →
      r.bssid ≠ b.bssid →
      bandSteeringStep b5 b6 m2 m5 m6 t cur aps st =
        (false, { st with roam_candidate := some ⟨b.bssid, b.score b5 b6, 1⟩ }) := by
    intro st r hc hb
    simp [bandSteeringStep, hne, hbest, hscore, hc, hb]
    omega
  have hacc : ∀ n j, 1 ≤ j → j + n < t →
      steerRun b5 b6 m2 m5 m6 t cur aps n
        { st0 with roam_candidate := some ⟨b.bssid, b.score b5 b6, j⟩ } =
      (0, { st0 with roam_candidate := some ⟨b.bssid, b.score b5 b6, j + n⟩ }) := by
    intro n
    induction n with
    | zero => intro j hj hjt; simp [steerRun]
    | succ n ih =>
      intro j hj hjt
      simp only [steerRun]
      rw [hstep_same_wait _ (b.score b5 b6) j rfl (by omega)]
      have hrec := ih (j + 1) (by omega) (by omega)
      have hidx : j + 1 + n = j + (n + 1) := by omega
      rw [hidx] at hrec
      simp [hrec]
  have hfire : ∀ n j, 1 ≤ j → j + n + 1 = t →
      steerRun b5 b6 m2 m5 m6 t cur aps (n + 1)
        { st0 with roam_candidate := some ⟨b.bssid, b.score b5 b6, j⟩ } =
      (1, { st0 with
              roam_candidate := none, last_good_bitrate := none,
              bandwidth_valid := false }) := by
    intro n
    induction n with
    | zero =>
      intro j hj hjt
      simp only [steerRun]
      rw [hstep_same_fire _ (fun _ => b.score b5 b6) j rfl (by omega)]
      simp [steerRun]
    | succ n ih =>
      intro j hj hjt
      rw [steerRun]
      rw [hstep_same_wait _ (b.score b5 b6) j rfl (by omega)]
      have hrec := ih (j + 1) (by omega) (by omega)
      simp [hrec]
  refine ⟨?_, ?_, hstep_other⟩
  · intro k h1 hk
    obtain ⟨n, rfl⟩ : ∃ n, k = n + 1 := ⟨k - 1, by omega⟩
    simp only [steerRun]
    rw [hstep_none st0 hcand]
    have hrec := hacc n 1 (by omega) (by omega)
    have hidx : 1 + n = n + 1 := by omega
    rw [hidx] at hrec
    simp [hrec]
  · have key : ∀ m, m = t →
        steerRun b5 b6 m2 m5 m6 t cur aps m st0 =
          (1, { st0 with
                  roam_candidate := none, last_good_bitrate := none,
                  bandwidth_valid := false }) := by
      intro m hm
      obtain ⟨n, rfl⟩ : ∃ n, m = n + 2 := ⟨m - 2, by omega⟩
      rw [steerRun]
      rw [hstep_none st0 hcand]
      have hrec := hfire n 1 (by omega) (by omega)
      simp [hrec]
    exact key t rfl

/-- Witness for the C3 amended theorem at the default
`roam_hysteresis_ticks = 3`: two qualifying ticks only track the
candidate, the third issues the one scan request and resets the cached
bandwidth state, and a tracked different-BSSID candidate is replaced
with a counter of 1. -/
theorem C3_roam_amended_witness :
    steerRun 15 20 (-75) (-72) (-65) 3 c3Cur [c3Cur, c3Cand] 2 c3St =
      (0, { c3St with roam_candidate := some ⟨"bb:bb:bb:bb:bb:bb", -45, 2⟩ })
    ∧ steerRun 15 20 (-75) (-72) (-65) 3 c3Cur [c3Cur, c3Cand] 3 c3St =
      (1, { c3St with
              roam_candidate := none, last_good_bitrate := none,
              bandwidth_valid := false })
    ∧ bandSteeringStep 15 20 (-75) (-72) (-65) 3 c3Cur [c3Cur, c3Cand]
        { c3St with roam_candidate := some ⟨"cc:cc:cc:cc:cc:cc", -50, 2⟩ } =
      (false, { c3St with roam_candidate := some ⟨"bb:bb:bb:bb:bb:bb", -45, 1⟩ }) := by
  obtain ⟨hA, hB, hC⟩ := C3_roam_amended 15 20 (-75) (-72) (-65) 3 c3Cur c3Cand
    [c3Cur, c3Cand] c3St (by omega) (by decide) (by decide) rfl
  refine ⟨?_, ?_, ?_⟩
  · rw [hA 2 (by omega) (by omega)]
    rfl
  · rw [hB]
  · rw [hC { c3St with roam_candidate := some ⟨"cc:cc:cc:cc:cc:cc", -50, 2⟩ }
      ⟨"cc:cc:cc:cc:cc:cc", -50, 2⟩ rfl (by decide)]
    rfl
